import Mathlib

/-
Verification of the decision-gate core of the "inevitability" repository.

The Python sources are shallowly embedded below, module by module:

  * core/logic/apophatic_guard.py     -> namespace ApophaticGuard
  * core/logic/consent_checker.py     -> namespace ConsentChecker
  * core/planner/decision_core.py     -> namespace DecisionCore
  * core/proofs/proof_carrying_advice.py -> namespace PCA
  * apps/contemplator/shadow_twin.py  -> namespace ShadowTwin

Modelling conventions:
  * Python dict values are modelled by the inductive type PyVal; dicts are
    insertion-ordered association lists with assignment semantics
    (replace the value of the first matching key in place, else append).
  * Python floats and ints are modelled as rationals; time.time() is an
    explicit "now" parameter.
  * Fallible Python code (attribute access on a possibly-None value) is
    modelled in the Except monad with an explicit error value.
-/

/-- Model of a Python value as stored in the free-form dictionaries the
decision core passes around.  Numbers (int and float alike) are rationals. -/
inductive PyVal : Type where
  | none : PyVal
  | bool (b : Bool) : PyVal
  | num (q : ℚ) : PyVal
  | str (s : String) : PyVal
  | list (xs : List PyVal) : PyVal
  | dict (kvs : List (String × PyVal)) : PyVal

/-- Python dict lookup: value of the first (and in well-formed dicts, only)
entry with the given key. -/
def lookupV {α : Type} (k : String) : List (String × α) → Option α
  | [] => Option.none
  | (k2, v) :: rest => if k2 = k then some v else lookupV k rest

/-- Python dict assignment d[k] = v: replace the value of an existing entry in
place, otherwise append a new entry at the end. -/
def assign {α : Type} (l : List (String × α)) (k : String) (v : α) : List (String × α) :=
  match l with
  | [] => [(k, v)]
  | (k2, v2) :: rest => if k2 = k then (k2, v) :: rest else (k2, v2) :: assign rest k v

/-- Python dict merge of two dicts: entries of b assigned over a. -/
def dictMerge {α : Type} (a b : List (String × α)) : List (String × α) :=
  b.foldl (fun acc kv => assign acc kv.1 kv.2) a

/-- Python truthiness of a value. -/
def truthy : PyVal → Bool
  | .none => false
  | .bool b => b
  | .num q => q != 0
  | .str s => s != ""
  | .list xs => !xs.isEmpty
  | .dict kvs => !kvs.isEmpty

namespace ApophaticGuard

/-- Dot-separated path extension used by the flattening helper. -/
def joinKey (pre k : String) : String :=
  if pre = "" then k else pre ++ "." ++ k

/-- Embedding of apophatic_guard._flatten_dict: recursively flatten a nested
dict into dot-separated paths, accumulating into result. -/
def flatten_go (pre : String) (l : List (String × PyVal)) (acc : List (String × PyVal)) :
    List (String × PyVal) :=
  match l with
  | [] => acc
  | (k, PyVal.dict kvs) :: rest =>
      flatten_go pre rest (flatten_go (joinKey pre k) kvs acc)
  | (k, v) :: rest => flatten_go pre rest (assign acc (joinKey pre k) v)
termination_by (sizeOf l, 0)
decreasing_by
  · simp only [Prod.mk.sizeOf_spec, List.cons.sizeOf_spec, PyVal.dict.sizeOf_spec]
    omega
  · simp only [Prod.mk.sizeOf_spec, List.cons.sizeOf_spec, PyVal.dict.sizeOf_spec]
    omega
  · simp only [Prod.mk.sizeOf_spec, List.cons.sizeOf_spec]
    omega

/-- Top-level entry mirroring _flatten_dict(d) with default prefix and fresh
accumulator. -/
def flatten_dict (d : List (String × PyVal)) : List (String × PyVal) :=
  flatten_go "" d []

/-- FORBIDDEN_KEYS of apophatic_guard.py. -/
def FORBIDDEN_KEYS : List String :=
  ["ground_is", "ultimate_name", "final_owner", "sovereign_claim", "ground_truth", "completion"]

/-- CONSTRAINT_ONLY keys of apophatic_guard.py. -/
def CONSTRAINT_ONLY : List String :=
  ["no_image", "no_totalization", "no_equivalence", "no_exchange", "no_possession"]

/-- WARN_MARKERS of apophatic_guard.py (reported, never cause failure). -/
def WARN_MARKERS : List String :=
  ["meta_closure", "self_grounding", "category_violation"]

/-- Python membership test value in (True, "enforced"), which uses ==; note
that in Python 1 == True and 1.0 == True, so numeric 1 also passes. -/
def isAffirmed : PyVal → Bool
  | .bool b => b
  | .num q => q == 1
  | .str s => s == "enforced"
  | _ => false

/-- Embedding of apophatic_guard.admissible: flatten context and params,
merge them (params override), then reject if any FORBIDDEN_KEYS member is a
key of the merged dict, or any CONSTRAINT_ONLY member is present with a value
other than True / "enforced". -/
def admissible (context : List (String × PyVal)) (params : List (String × PyVal)) : Bool :=
  let all_params := flatten_dict params
  let all_context := flatten_dict context
  let combined := dictMerge all_context all_params
  (FORBIDDEN_KEYS.all fun k => (lookupV k combined).isNone) &&
  (CONSTRAINT_ONLY.all fun k => (lookupV k combined).all isAffirmed)

end ApophaticGuard

namespace ConsentChecker

/-- Embedding of ConsentScope.can_escalate: the scope lattice levels.  Keys
outside the lattice have no level. -/
def scope_levels : String → Option Nat
  | "self" => some 0
  | "dyad" => some 1
  | "group" => some 2
  | "org" => some 3
  | "public" => some 4
  | _ => Option.none

/-- ConsentScope.can_escalate(from_scope, to_scope): both scopes must be in
the lattice, and only de-escalation (to an equal or more constrained level)
is allowed. -/
def can_escalate (from_scope to_scope : String) : Bool :=
  match scope_levels from_scope, scope_levels to_scope with
  | some a, some b => a ≥ b
  | _, _ => false

/-- Embedding of consent_checker.ConsentTicket (the variant with invocation
tracking).  Timestamps and TTL are rationals, counts are integers. -/
structure ConsentTicket where
  scope : String
  issued_at : ℚ
  ttl_seconds : ℚ
  max_invocations : ℤ := 1
  invocations : ℤ := 0
deriving DecidableEq

/-- ConsentTicket.is_valid(): not past TTL and invocations remaining, at the
explicit time now. -/
def ConsentTicket.is_valid (now : ℚ) (t : ConsentTicket) : Bool :=
  if now > t.issued_at + t.ttl_seconds then false
  else if t.invocations ≥ t.max_invocations then false
  else true

/-- ConsentTicket.use(): increments the invocation count and returns True
only when the ticket is valid; state passing replaces Python mutation. -/
def ConsentTicket.use (now : ℚ) (t : ConsentTicket) : Bool × ConsentTicket :=
  if t.is_valid now then (true, { t with invocations := t.invocations + 1 })
  else (false, t)

/-- ConsentChecker.validate_ticket. -/
def validate_ticket (now : ℚ) (t : ConsentTicket) : Bool :=
  t.is_valid now

/-- ConsentChecker.validate_scope_escalation. -/
def validate_scope_escalation (t : ConsentTicket) (target_scope : String) : Bool :=
  can_escalate t.scope target_scope

/-- Typed model of the "consent" sub-dictionary of a context: each field of
interest is either absent or present with a value; "valid" may hold any
Python value and is tested for truthiness. -/
structure ConsentField where
  scope : Option String
  valid : Option PyVal
  issued_at : Option ℚ
  ttl_seconds : Option ℚ
  max_invocations : Option ℤ
  invocations : Option ℤ

/-- Typed model of one element of a "consent_tickets" list: a dictionary of
optional ticket fields, an actual ConsentTicket object, or anything else
(which extract_from_context skips). -/
inductive TicketEntry : Type where
  | dictEntry (scope : Option String) (issued_at : Option ℚ) (ttl_seconds : Option ℚ)
      (max_invocations : Option ℤ) (invocations : Option ℤ) : TicketEntry
  | ticket (t : ConsentTicket) : TicketEntry
  | other : TicketEntry

/-- Typed model of a context dictionary, restricted to the two keys that
extract_from_context inspects. -/
structure Ctx where
  consent : Option ConsentField
  consent_tickets : Option (List TicketEntry)

/-- Embedding of ConsentChecker.extract_from_context.  The "consent" entry
contributes a ticket only when scope and valid are both present and valid is
truthy; defaults mirror the source (issued_at defaults to one minute before
now, ttl 3600, max_invocations 1, invocations 0, scope "self"). -/
def extract_from_context (now : ℚ) (ctx : Ctx) : List ConsentTicket :=
  let fromConsent : List ConsentTicket :=
    match ctx.consent with
    | Option.none => []
    | some c =>
      match c.scope, c.valid with
      | some s, some v =>
          if truthy v then
            [{ scope := s, issued_at := c.issued_at.getD (now - 60),
               ttl_seconds := c.ttl_seconds.getD 3600,
               max_invocations := c.max_invocations.getD 1,
               invocations := c.invocations.getD 0 }]
          else []
      | _, _ => []
  let fromList : List ConsentTicket :=
    match ctx.consent_tickets with
    | Option.none => []
    | some entries =>
        entries.foldr (fun e acc =>
          match e with
          | TicketEntry.dictEntry sc ia ttl mi inv =>
              { scope := sc.getD "self", issued_at := ia.getD (now - 60),
                ttl_seconds := ttl.getD 3600, max_invocations := mi.getD 1,
                invocations := inv.getD 0 } :: acc
          | TicketEntry.ticket t => t :: acc
          | TicketEntry.other => acc) []
  fromConsent ++ fromList

/-- Embedding of ConsentChecker.check_context: extract tickets; fail when
none; with no target scope any valid ticket suffices, otherwise some ticket
must be valid and cover the target scope by de-escalation. -/
def check_context (now : ℚ) (ctx : Ctx) (target_scope : Option String) : Bool :=
  let tickets := extract_from_context now ctx
  if tickets.isEmpty then false
  else
    match target_scope with
    | Option.none => tickets.any fun t => t.is_valid now
    | some tgt => tickets.any fun t => t.is_valid now && can_escalate t.scope tgt

end ConsentChecker

namespace DecisionCore

/-- Tri-state verdict of decision_core.py. -/
inductive Decision : Type where
  | Answer : Decision
  | Refuse : Decision
  | Stand : Decision
deriving DecidableEq

/-- Four-valued FDE truth tag of decision_core.py. -/
inductive TruthVal : Type where
  | T : TruthVal
  | F : TruthVal
  | B : TruthVal
  | N : TruthVal
deriving DecidableEq

/-- String form of a Decision, as used for the answer text of non-Answer
verdicts. -/
def Decision.toStr : Decision → String
  | Decision.Answer => "Answer"
  | Decision.Refuse => "Refuse"
  | Decision.Stand => "Stand"

/-- String form of a TruthVal as stored in the proofs logic dict. -/
def TruthVal.toStr : TruthVal → String
  | TruthVal.T => "T"
  | TruthVal.F => "F"
  | TruthVal.B => "B"
  | TruthVal.N => "N"

/-- Embedding of decision_core.ConsentTicket (the variant without invocation
tracking). -/
structure ConsentTicket where
  holder : String
  scope : String
  ttl_seconds : ℚ
  issued_at : ℚ
  terms : List (String × PyVal)

/-- decision_core.ConsentTicket.is_valid: TTL check only. -/
def ConsentTicket.is_valid (now : ℚ) (t : ConsentTicket) : Bool :=
  now ≤ t.issued_at + t.ttl_seconds

/-- The ticket's __dict__ as serialized into consent evidence. -/
def ConsentTicket.toPyVal (t : ConsentTicket) : PyVal :=
  PyVal.dict [("holder", .str t.holder), ("scope", .str t.scope),
    ("ttl_seconds", .num t.ttl_seconds), ("issued_at", .num t.issued_at),
    ("terms", .dict t.terms)]

/-- Embedding of decision_core.ProofBundle. -/
structure ProofBundle where
  logic : List (String × PyVal)
  ethics : List (String × PyVal)
  consent : List (String × PyVal)
  phenomenology : List (String × PyVal)
  repair_horizon : Option ℚ := Option.none

/-- Embedding of decision_core.Action (proto_proofs omitted: never read by
the embedded code paths). -/
structure Action where
  id : String
  description : String
  params : List (String × PyVal)
  reversible : Bool := true
  predicted_truth : TruthVal := TruthVal.T

/-- Embedding of decision_core.State. -/
structure State where
  context : List (String × PyVal)
  stage : String
  will_operator : String
  consent_tickets : List ConsentTicket
  paradox_nearby : Bool := false

/-- Embedding of decision_core.DecisionResult. -/
structure DecisionResult where
  decision : Decision
  chosen_action : Option Action
  delta_E : Option ℚ
  grace : Option ℚ
  truth : Option TruthVal
  proofs : ProofBundle
  ledger_id : Option String

/-- Python runtime error raised by the embedded code: attribute access on a
None value. -/
inductive PyErr : Type where
  | attributeError : PyErr
deriving DecidableEq

/-- Embedding of decision_core.check_consent: all tickets of the state must
be TTL-valid (vacuously true when the list is empty); the action argument is
unused, exactly as in the source. -/
def check_consent (now : ℚ) (state : State) (_action : Option Action) :
    Bool × List (String × PyVal) :=
  let valid := state.consent_tickets.all fun t => t.is_valid now
  (valid, [("tickets", PyVal.list (state.consent_tickets.map ConsentTicket.toPyVal))])

/-- Attribute access action.params on a possibly-None action: None has no
params attribute, so the access raises AttributeError. -/
def getParams : Option Action → Except PyErr (List (String × PyVal))
  | Option.none => Except.error PyErr.attributeError
  | some a => Except.ok a.params

/-- Embedding of decision_core.check_apophatic: evaluates action.params and
feeds it to the apophatic guard together with the state context. -/
def check_apophatic (state : State) (action : Option Action) :
    Except PyErr (Bool × List (String × PyVal)) := do
  let ps ← getParams action
  let ok := ApophaticGuard.admissible state.context ps
  Except.ok (ok, [("apophatic_ok", PyVal.bool ok)])

/-- One row of the solver's scored list: (candidate, effective cost E*K, raw
cost E, coherence G). -/
structure Scored where
  act : Action
  EK : ℚ
  E : ℚ
  G : ℚ

/-- The scoring step of minimal_clean_move for one candidate, parametrized
by the energy, kernel-weight and grace collaborator functions. -/
def score (energy kernelW grace : State → Action → ℚ) (st : State) (a : Action) : Scored :=
  let E := energy st a
  let K := kernelW st a
  { act := a, EK := E * K, E := E, G := grace st a }

/-- The replacement condition of the solver's selection loop: the new row n
beats the current best b when EK is strictly smaller, or EK ties and G is
strictly larger, or EK and G tie and E is strictly smaller. -/
def better (n b : Scored) : Bool :=
  if n.EK < b.EK then true
  else if n.EK = b.EK then
    (if b.G < n.G then true else if n.G = b.G then decide (n.E < b.E) else false)
  else false

/-- The selection loop of minimal_clean_move over the scored list.  The
Python loop starts from best = None with infinite best cost, so the first
row always replaces it (rationals model finite floats). -/
def selectBest (scored : List Scored) : Option Scored :=
  scored.foldl (fun best t =>
    match best with
    | Option.none => some t
    | some b => if better t b then some t else some b) Option.none

/-- The retry sort relation: grace descending, then raw cost ascending,
mirroring sort(key=(-G, E)). -/
def gSortRel (x y : Scored) : Prop :=
  y.G < x.G ∨ (x.G = y.G ∧ x.E ≤ y.E)

instance : DecidableRel gSortRel := fun x y => by
  unfold gSortRel; infer_instance

/-- Embedding of decision_core.minimal_clean_move: lexicographic selection
by effective cost, then grace, then raw cost; the winner must have raw cost
strictly below MIN_DELTA_E; if it misses the grace floor, retry among rows
with raw cost below the threshold sorted by grace descending then raw cost
ascending. -/
def minimal_clean_move (energy kernelW grace : State → Action → ℚ)
    (MIN_DELTA_E MIN_GRACE : ℚ) (st : State) (candidates : List Action) :
    Option Action × Option ℚ × Option ℚ :=
  let scored := candidates.map (score energy kernelW grace st)
  match selectBest scored with
  | Option.none => (Option.none, Option.none, Option.none)
  | some b =>
    let delta_E := b.E
    if delta_E ≥ MIN_DELTA_E then (Option.none, Option.none, Option.none)
    else if b.G < MIN_GRACE then
      let viable := scored.filter fun t => t.E < MIN_DELTA_E
      match viable.insertionSort gSortRel with
      | [] => (Option.none, Option.none, Option.none)
      | t :: _ =>
          if t.G ≥ MIN_GRACE then (some t.act, some t.E, some t.G)
          else (Option.none, Option.none, Option.none)
    else (some b.act, some delta_E, some b.G)

/-- Embedding of decision_core.pgl_decide.  With no accepted action the
verdict is Refuse when the proofs record a consent or apophatic failure and
Stand otherwise; with an action the verdict follows the four-valued truth
tag (the source's paradox_nearby conditional yields Answer in both arms). -/
def pgl_decide (_state : State) (action : Option Action) (proofs : ProofBundle)
    (truth : TruthVal) : Decision :=
  match action with
  | Option.none =>
      let consent_ok := truthy ((lookupV "ok" proofs.consent).getD (PyVal.bool true))
      let apoph_ok := truthy ((lookupV "apophatic_ok" proofs.logic).getD (PyVal.bool true))
      if !consent_ok || !apoph_ok then Decision.Refuse else Decision.Stand
  | some _ =>
      match truth with
      | TruthVal.T => Decision.Answer
      | TruthVal.B => Decision.Answer
      | TruthVal.N => Decision.Stand
      | TruthVal.F => Decision.Refuse

/-- Embedding of decision_core.decide, parametrized by the collaborator
seams the source imports at runtime (energy, kernel weight, grace, pricing,
antimemory, proof-carrying-advice store) and by the thresholds loaded from
configuration.  Step 1 evaluates check_apophatic(state, None), whose
attribute access on None raises. -/
def decide (now : ℚ) (energy kernelW grace : State → Action → ℚ)
    (MIN_DELTA_E MIN_GRACE : ℚ)
    (price_externalities : State → Action → List (String × PyVal))
    (antimemory : State → Action → Except PyErr (List (String × PyVal)))
    (attach_pca : String → ProofBundle → String)
    (ledger_required : Bool) (repair_max_days : ℚ)
    (st : State) (candidates : List Action) : Except PyErr DecisionResult := do
  let (consent_ok, consent_info) := check_consent now st Option.none
  let (apoph_ok, apoph_info) ← check_apophatic st Option.none
  if !consent_ok || !apoph_ok then
    let proofs : ProofBundle :=
      { logic := [("apophatic_ok", PyVal.bool apoph_ok)], ethics := [],
        consent := dictMerge [("ok", PyVal.bool consent_ok)] consent_info,
        phenomenology := [] }
    let res : DecisionResult :=
      { decision := Decision.Refuse, chosen_action := Option.none,
        delta_E := Option.none, grace := Option.none, truth := Option.none,
        proofs := proofs, ledger_id := Option.none }
    Except.ok res
  else
    let ethics_info :=
      if st.will_operator = "EXP" || st.stage = "S11" then
        price_externalities st
          (match candidates with
           | [] => { id := "noop", description := "noop", params := [] }
           | c :: _ => c)
      else []
    let shadow_info :=
      match candidates with
      | [] => []
      | c :: _ =>
          match antimemory st c with
          | Except.ok s => s
          | Except.error _ => []
    let (action, delta_E, G) :=
      minimal_clean_move energy kernelW grace MIN_DELTA_E MIN_GRACE st candidates
    let truth :=
      match action with
      | some a => a.predicted_truth
      | Option.none => TruthVal.N
    let repair_horizon :=
      if st.paradox_nearby then some (now + repair_max_days * 86400) else Option.none
    let proofs : ProofBundle :=
      { logic := dictMerge [("truth", PyVal.str truth.toStr)] apoph_info,
        ethics := ethics_info,
        consent := dictMerge [("ok", PyVal.bool consent_ok)] consent_info,
        phenomenology := shadow_info,
        repair_horizon := repair_horizon }
    let decision := pgl_decide st action proofs truth
    let answer_text :=
      match decision, action with
      | Decision.Answer, some a => a.description
      | d, _ => d.toStr
    let ledger_id := if ledger_required then some (attach_pca answer_text proofs) else Option.none
    let res : DecisionResult :=
      { decision := decision, chosen_action := action, delta_E := delta_E,
        grace := G, truth := some truth, proofs := proofs, ledger_id := ledger_id }
    Except.ok res

end DecisionCore

/-- Computable lexicographic comparison of character lists by code point:
the order in which json.dumps(sort_keys=True) sorts dict keys. -/
def charListLE : List Char → List Char → Bool
  | [], _ => true
  | _ :: _, [] => false
  | a :: as, b :: bs => if a = b then charListLE as bs else decide (a.toNat < b.toNat)

/-- Ordering of dict entries by key, mirroring json.dumps(sort_keys=True). -/
def keyLE (p q : String × PyVal) : Prop :=
  charListLE p.1.data q.1.data = true

instance : DecidableRel keyLE := fun p q => by
  unfold keyLE; infer_instance

instance : IsTotal (String × PyVal) keyLE := by
  constructor
  intro p q
  unfold keyLE
  generalize p.1.data = as
  generalize q.1.data = bs
  induction as generalizing bs with
  | nil => exact Or.inl rfl
  | cons a as ih =>
      cases bs with
      | nil => exact Or.inr rfl
      | cons b bs =>
          by_cases hab : a = b
          · subst hab
            rcases ih bs with h | h
            · exact Or.inl (by simp only [charListLE, if_pos rfl]; exact h)
            · exact Or.inr (by simp only [charListLE, if_pos rfl]; exact h)
          · rcases Nat.lt_trichotomy a.toNat b.toNat with h | h | h
            · refine Or.inl ?_
              simp only [charListLE, if_neg hab]
              exact decide_eq_true h
            · exact absurd (Char.ext (UInt32.toNat.inj h)) hab
            · refine Or.inr ?_
              simp only [charListLE, if_neg (fun e : b = a => hab e.symm)]
              exact decide_eq_true h

instance : IsTrans (String × PyVal) keyLE := by
  constructor
  intro p q r h1 h2
  unfold keyLE at h1 h2 ⊢
  suffices H : ∀ as bs cs, charListLE as bs = true → charListLE bs cs = true →
      charListLE as cs = true from H _ _ _ h1 h2
  intro as
  induction as with
  | nil => intro bs cs _ _; rfl
  | cons a as ih =>
      intro bs cs hab hbc
      cases bs with
      | nil => simp [charListLE] at hab
      | cons b bs =>
          cases cs with
          | nil => simp [charListLE] at hbc
          | cons c cs =>
              by_cases h1 : a = b <;> by_cases h2 : b = c
              · subst h1; subst h2
                simp only [charListLE, if_pos rfl] at hab hbc ⊢
                exact ih bs cs hab hbc
              · subst h1
                simp only [charListLE, if_neg h2, decide_eq_true_eq] at hbc ⊢
                exact hbc
              · subst h2
                simp only [charListLE, if_neg h1, decide_eq_true_eq] at hab ⊢
                exact hab
              · simp only [charListLE, if_neg h1, if_neg h2, decide_eq_true_eq] at hab hbc
                by_cases h3 : a = c
                · subst h3; omega
                · simp only [charListLE, if_neg h3]
                  exact decide_eq_true (by omega)

/-- Double-quote a string, as json.dumps renders keys and string values
(escape sequences inside the string are not modelled; determinism is
unaffected). -/
def quoteStr (s : String) : String :=
  "\"" ++ s ++ "\""

/-- Model of json.dumps(obj, sort_keys=True): canonical serialization with
dict entries sorted by key at every nesting level and ", " / ": "
separators.  Numbers are rendered canonically via toString of the rational
(json renders decimal literals; only injectivity and determinism of the
rendering matter here). -/
def dumps (v : PyVal) : String :=
  match v with
  | .none => "null"
  | .bool true => "true"
  | .bool false => "false"
  | .num q => toString q
  | .str s => quoteStr s
  | .list xs =>
      "[" ++ String.intercalate ", " (xs.attach.map fun x => dumps x.1) ++ "]"
  | .dict kvs =>
      "\x7b" ++ String.intercalate ", "
        (((kvs.insertionSort keyLE).attach).map fun e => quoteStr e.1.1 ++ ": " ++ dumps e.1.2) ++
      "\x7d"
termination_by sizeOf v
decreasing_by
  · have := List.sizeOf_lt_of_mem x.2
    simp only [PyVal.list.sizeOf_spec]
    omega
  · have h1 := List.sizeOf_lt_of_mem ((List.perm_insertionSort keyLE kvs).subset e.2)
    have h2 : sizeOf e.1.2 < sizeOf e.1 := by
      obtain ⟨⟨k, v⟩, hm⟩ := e
      simp only [Prod.mk.sizeOf_spec]
      omega
    simp only [PyVal.dict.sizeOf_spec]
    omega

/-- Two to the sixty-fourth power, the modulus of 64-bit words. -/
def U64 : Nat := 18446744073709551616

/-- Rotate right within 64-bit words. -/
def rotr64 (x n : Nat) : Nat :=
  ((x >>> n) ||| ((x <<< (64 - n)) % U64)) % U64

/-- BLAKE2b initialization vector. -/
def blakeIV : List Nat :=
  [0x6a09e667f3bcc908, 0xbb67ae8584caa73b, 0x3c6ef372fe94f82b, 0xa54ff53a5f1d36f1,
   0x510e527fade682d1, 0x9b05688c2b3e6c1f, 0x1f83d9abfb41bd6b, 0x5be0cd19137e2179]

/-- BLAKE2b message schedule permutations. -/
def blakeSigma : List (List Nat) :=
  [[0,1,2,3,4,5,6,7,8,9,10,11,12,13,14,15],
   [14,10,4,8,9,15,13,6,1,12,0,2,11,7,5,3],
   [11,8,12,0,5,2,15,13,10,14,3,6,7,1,9,4],
   [7,9,3,1,13,12,11,14,2,6,5,10,4,0,15,8],
   [9,0,5,7,2,4,10,15,14,1,11,12,6,8,3,13],
   [2,12,6,10,0,11,8,3,4,13,7,5,15,14,1,9],
   [12,5,1,15,14,13,4,10,0,7,6,3,9,2,8,11],
   [13,11,7,14,12,1,3,9,5,0,15,4,8,6,2,10],
   [6,15,14,9,11,3,0,8,12,2,13,7,1,4,10,5],
   [10,2,8,4,7,6,1,5,15,11,9,14,3,12,13,0]]

/-- BLAKE2b mixing function G on the 16-word working vector. -/
def blakeG (v : Array Nat) (a b c d x y : Nat) : Array Nat :=
  let va := (v.get! a + v.get! b + x) % U64
  let vd := rotr64 ((v.get! d) ^^^ va) 32
  let vc := (v.get! c + vd) % U64
  let vb := rotr64 ((v.get! b) ^^^ vc) 24
  let va2 := (va + vb + y) % U64
  let vd2 := rotr64 (vd ^^^ va2) 16
  let vc2 := (vc + vd2) % U64
  let vb2 := rotr64 (vb ^^^ vc2) 63
  (((v.set! a va2).set! b vb2).set! c vc2).set! d vd2

/-- One BLAKE2b round with message words m and schedule s. -/
def blakeRound (m : Array Nat) (v : Array Nat) (s : List Nat) : Array Nat :=
  let v := blakeG v 0 4 8 12 (m.get! (s.get! 0)) (m.get! (s.get! 1))
  let v := blakeG v 1 5 9 13 (m.get! (s.get! 2)) (m.get! (s.get! 3))
  let v := blakeG v 2 6 10 14 (m.get! (s.get! 4)) (m.get! (s.get! 5))
  let v := blakeG v 3 7 11 15 (m.get! (s.get! 6)) (m.get! (s.get! 7))
  let v := blakeG v 0 5 10 15 (m.get! (s.get! 8)) (m.get! (s.get! 9))
  let v := blakeG v 1 6 11 12 (m.get! (s.get! 10)) (m.get! (s.get! 11))
  let v := blakeG v 2 7 8 13 (m.get! (s.get! 12)) (m.get! (s.get! 13))
  let v := blakeG v 3 4 9 14 (m.get! (s.get! 14)) (m.get! (s.get! 15))
  v

/-- BLAKE2b compression of one 128-byte block (given as 16 little-endian
words), with byte counter t and finalization flag. -/
def blakeCompress (h : Array Nat) (m : Array Nat) (t : Nat) (last : Bool) : Array Nat :=
  let v0 := h ++ (blakeIV.toArray)
  let v1 := v0.set! 12 ((v0.get! 12) ^^^ (t % U64))
  let v2 := v1.set! 13 ((v1.get! 13) ^^^ (t / U64 % U64))
  let v3 := if last then v2.set! 14 ((v2.get! 14) ^^^ 0xFFFFFFFFFFFFFFFF) else v2
  let rounds := (List.range 12).map fun i => blakeSigma.get! (i % 10)
  let v4 := rounds.foldl (fun v s => blakeRound m v s) v3
  (List.range 8).foldl (fun acc i =>
    acc.set! i ((h.get! i) ^^^ (v4.get! i) ^^^ (v4.get! (i + 8)))) h

/-- Split a byte list into 128-byte blocks (the last block possibly
short). -/
def blocks128 (l : List Nat) : List (List Nat) :=
  if _h : l.length ≤ 128 then [l]
  else l.take 128 :: blocks128 (l.drop 128)
termination_by l.length
decreasing_by
  simp only [List.length_drop]
  omega

/-- Sixteen little-endian 64-bit words from a (padded) 128-byte block. -/
def blockWords (b : List Nat) : Array Nat :=
  let padded := b ++ List.replicate (128 - b.length) 0
  ((List.range 16).map fun i =>
    (List.range 8).foldr (fun j acc => acc * 256 + padded.getD (8 * i + j) 0) 0).toArray

/-- BLAKE2b over a byte list with digest size nn (no key), returning the
digest bytes. -/
def blake2b (msg : List Nat) (nn : Nat) : List Nat :=
  let h0 := (blakeIV.toArray).set! 0 ((blakeIV.get! 0) ^^^ (0x01010000 ^^^ nn))
  let bs := if msg.isEmpty then [[]] else blocks128 msg
  let n := bs.length
  let hFinal := (bs.enum.foldl (fun h bi =>
    let last := bi.1 = n - 1
    let t := if last then msg.length else 128 * (bi.1 + 1)
    blakeCompress h (blockWords bi.2) t last) h0)
  ((List.range nn).map fun i =>
    (hFinal.get! (i / 8)) >>> (8 * (i % 8)) % 256)

/-- One lowercase hex digit: 0-9 then a-f, by code point. -/
def hexChar (n : Nat) : Char :=
  if n < 10 then Char.ofNat (48 + n) else Char.ofNat (87 + n)

/-- Lowercase hex rendering of a byte list. -/
def bytesHex (bs : List Nat) : String :=
  String.mk (bs.foldr (fun b acc => hexChar (b / 16) :: hexChar (b % 16) :: acc) [])

/-- UTF-8 bytes of a string, as Python str.encode("utf-8"). -/
def strBytes (s : String) : List Nat :=
  s.toUTF8.toList.map fun b => b.toNat

namespace PCA

/-- Embedding of proof_carrying_advice.blake: canonical JSON serialization
with sorted keys, then BLAKE2b with 16-byte digest, in lowercase hex. -/
def blake (obj : PyVal) : String :=
  bytesHex (blake2b (strBytes (dumps obj)) 16)

/-- Embedding of proof_carrying_advice.Proof. -/
structure Proof where
  name : String
  ok : Bool
  details : PyVal
  token : String

/-- Embedding of ProofCarryingAdvice._mk_proof: the token is the blake hash
of the dict with the name, outcome and details. -/
def mk_proof (name : String) (ok : Bool) (details : PyVal) : Proof :=
  let tok := blake (PyVal.dict [("name", PyVal.str name), ("ok", PyVal.bool ok), ("details", details)])
  { name := name, ok := ok, details := details, token := tok }

/-- Typed model of an AdviceDraft plan: the two fields the shadow twin
manipulates (budget_lines, rollback_recipe) plus the untouched remainder. -/
structure Plan where
  budget_lines : Option (List (String × ℚ))
  rollback_recipe : Option PyVal
  rest : List (String × PyVal)

/-- Typed model of AdviceDraft params: the will tag plus the untouched
remainder. -/
structure Params where
  will : Option String
  rest : List (String × PyVal)

/-- Embedding of proof_carrying_advice.AdviceDraft. -/
structure AdviceDraft where
  id : String
  query : String
  plan : Plan
  params : Params
  context : List (String × PyVal)

/-- Embedding of proof_carrying_advice.AdviceWithProof. -/
structure AdviceWithProof where
  id : String
  answer : String
  risk : ℚ
  proofs : List Proof
  assessment : PyVal
  decided_at : ℚ

end PCA

namespace ShadowTwin

/-- Embedding of shadow_twin.WILL_INVERT, in source order. -/
def WILL_INVERT : List (String × String) :=
  [("NEGATION", "POTENTIATION"),
   ("POTENTIATION", "NEGATION"),
   ("GENERATION", "ANNIHILATION"),
   ("EXPANSION", "POSSESSION"),
   ("POSSESSION", "EXPANSION"),
   ("CONSUMMATION", "ASPIRATION"),
   ("ASPIRATION", "CONSUMMATION"),
   ("TRANSCENSION", "NEGATION"),
   ("ANNIHILATION", "GENERATION")]

/-- Dictionary lookup in WILL_INVERT. -/
def willInvert (w : String) : Option String :=
  lookupV w WILL_INVERT

/-- Embedding of shadow_twin.TwinResult. -/
structure TwinResult where
  primary : PCA.AdviceWithProof
  counter : PCA.AdviceWithProof
  selection : String
  rationale : PyVal

/-- The six externality budget keys hardened by ShadowTwin._invert. -/
def BUDGET_KEYS : List String :=
  ["privacy", "safety", "environmental", "reputation", "technical_debt", "compute"]

/-- Embedding of ShadowTwin._invert: invert the will operator through the
table when the uppercased tag is present; raise each of the six budget
lines to at least 0.9 (treating a missing line as 0.0); set a default
rollback recipe when absent; keep query and context unchanged; the id gains
a counter suffix. -/
def invertDraft (draft : PCA.AdviceDraft) : PCA.AdviceDraft :=
  let w := (draft.params.will.getD "").toUpper
  let params2 : PCA.Params :=
    match willInvert w with
    | some cw => { draft.params with will := some cw }
    | Option.none => draft.params
  let bl0 := draft.plan.budget_lines.getD []
  let bl := BUDGET_KEYS.foldl
    (fun acc k => assign acc k (max (9 / 10 : ℚ) ((lookupV k acc).getD 0))) bl0
  let plan2 : PCA.Plan :=
    { budget_lines := some bl,
      rollback_recipe :=
        some (draft.plan.rollback_recipe.getD
          (PyVal.str "rollback: kill-switch + throttle + data quarantine")),
      rest := draft.plan.rest }
  { id := draft.id ++ ":counter", query := draft.query, plan := plan2,
    params := params2, context := draft.context }

/-- Embedding of ShadowTwin._counter_answer. -/
def counter_answer (answer : String) : String :=
  "COUNTER-MOVE: " ++ answer

/-- Embedding of ShadowTwin._hard_ok: build the name-to-ok dict from the
proofs list (later proofs overwrite earlier ones of the same name, as in
the Python dict comprehension) and require consent, apophatic and
externalities to all be ok. -/
def hard_ok (awp : PCA.AdviceWithProof) : Bool :=
  let byName := awp.proofs.foldl (fun acc p => assign acc p.name p.ok) ([] : List (String × Bool))
  ((lookupV "consent" byName).getD false) &&
  ((lookupV "apophatic" byName).getD false) &&
  ((lookupV "externalities" byName).getD false)

/-- Embedding of ShadowTwin.contemplate, parametrized by the proof-pipeline
collaborator build (the source's self.pca.build).  Builds primary and
counter advice, then selects: a side that alone passes all hard gates wins
outright; otherwise the lower risk wins with ties in favour of primary. -/
def contemplate (build : PCA.AdviceDraft → String → PCA.AdviceWithProof)
    (draft : PCA.AdviceDraft) (primary_answer : String) : TwinResult :=
  let primary_awp := build draft primary_answer
  let counter_draft := invertDraft draft
  let counter_awp := build counter_draft (counter_answer primary_answer)
  let prim_ok := hard_ok primary_awp
  let cnt_ok := hard_ok counter_awp
  let pick :=
    if prim_ok && !cnt_ok then "primary"
    else if cnt_ok && !prim_ok then "counter"
    else if primary_awp.risk ≤ counter_awp.risk then "primary"
    else "counter"
  let rationale : PyVal := PyVal.dict
    [("hard_ok", PyVal.dict [("primary", PyVal.bool prim_ok), ("counter", PyVal.bool cnt_ok)]),
     ("risk", PyVal.dict [("primary", PyVal.num primary_awp.risk), ("counter", PyVal.num counter_awp.risk)]),
     ("note", PyVal.str "selected lower-risk among gates-passing candidates")]
  { primary := primary_awp, counter := counter_awp, selection := pick, rationale := rationale }

end ShadowTwin

namespace DecisionCore

/-- The lexicographic preorder the solver minimizes: effective cost
ascending, then grace descending, then raw cost ascending. -/
def lexLE (a b : Scored) : Prop :=
  a.EK < b.EK ∨ (a.EK = b.EK ∧ (b.G < a.G ∨ (a.G = b.G ∧ a.E ≤ b.E)))

end DecisionCore

/-- Strict ordering of dict entries by key: at most, with distinct keys. -/
def keyLT (p q : String × PyVal) : Prop :=
  keyLE p q ∧ p.1 ≠ q.1

instance : IsAntisymm (String × PyVal) keyLT := by
  constructor
  intro a b h1 h2
  refine (h1.2 (String.ext ?_)).elim
  have ha := h1.1
  have hb := h2.1
  unfold keyLE at ha hb
  suffices H : ∀ as bs, charListLE as bs = true → charListLE bs as = true → as = bs from
    H _ _ ha hb
  intro as
  induction as with
  | nil =>
      intro bs h1 h2
      cases bs with
      | nil => rfl
      | cons b bs => simp [charListLE] at h2
  | cons a as ih =>
      intro bs h1 h2
      cases bs with
      | nil => simp [charListLE] at h1
      | cons b bs =>
          by_cases hab : a = b
          · subst hab
            simp only [charListLE, if_pos rfl] at h1 h2
            rw [ih bs h1 h2]
          · simp only [charListLE, if_neg hab, if_neg (fun e : b = a => hab e.symm),
              decide_eq_true_eq] at h1 h2
            omega

/-- Well-formedness of a dict entry list: pairwise distinct keys, as holds
of every list arising from a Python dict. -/
def NodupKeys (l : List (String × PyVal)) : Prop :=
  l.Pairwise fun p q => p.1 ≠ q.1

/-! Claim theorems. -/

/-- C2: the apophatic admissibility check is claimed to return False whenever
a forbidden key occurs at any nesting depth; on the code, a forbidden key
nested two dictionaries deep flattens to the dot path deep.deeper.ground_is,
which is not an element of FORBIDDEN_KEYS, so admissible returns True -- the
guard's own test expects exactly this input to be inadmissible. -/
theorem C2_nested_forbidden_key_admitted :
    ApophaticGuard.admissible []
      [("deep", PyVal.dict [("deeper", PyVal.dict [("ground_is", PyVal.str "hidden here")])])] = true
    ∧ ApophaticGuard.flatten_dict
        [("deep", PyVal.dict [("deeper", PyVal.dict [("ground_is", PyVal.str "hidden here")])])] =
        [("deep.deeper.ground_is", PyVal.str "hidden here")]
    ∧ "ground_is" ∈ ApophaticGuard.FORBIDDEN_KEYS := by
  refine ⟨?_, ?_, ?_⟩
  · simp [ApophaticGuard.admissible, ApophaticGuard.flatten_dict, ApophaticGuard.flatten_go,
      ApophaticGuard.joinKey, ApophaticGuard.FORBIDDEN_KEYS, ApophaticGuard.CONSTRAINT_ONLY,
      assign, dictMerge, lookupV]
  · simp [ApophaticGuard.flatten_dict, ApophaticGuard.flatten_go, ApophaticGuard.joinKey, assign]
  · simp [ApophaticGuard.FORBIDDEN_KEYS]

/-- C1: the claim says decide returns Refuse with no chosen action whenever
the consent or apophatic state check fails; on the code, decide evaluates
check_apophatic(state, None) whose attribute access action.params on None
raises AttributeError, for every state and every candidate list, so decide
never returns a DecisionResult at all. -/
theorem C1_decide_always_raises (now : ℚ)
    (energy kernelW grace : DecisionCore.State → DecisionCore.Action → ℚ)
    (MIN_DELTA_E MIN_GRACE : ℚ)
    (pe : DecisionCore.State → DecisionCore.Action → List (String × PyVal))
    (am : DecisionCore.State → DecisionCore.Action →
      Except DecisionCore.PyErr (List (String × PyVal)))
    (ap : String → DecisionCore.ProofBundle → String)
    (lr : Bool) (rd : ℚ)
    (st : DecisionCore.State) (candidates : List DecisionCore.Action) :
    DecisionCore.decide now energy kernelW grace MIN_DELTA_E MIN_GRACE pe am ap lr rd
      st candidates = Except.error DecisionCore.PyErr.attributeError := rfl

/-- C3 counterexample: the claim says a state or context with no tickets at
all never passes the consent check; decision_core.check_consent on a state
with an empty consent_tickets list returns True (all of an empty list is
vacuously true). -/
theorem C3_counterexample_no_tickets_pass :
    (DecisionCore.check_consent 0
      { context := [], stage := "S5", will_operator := "EXP",
        consent_tickets := [], paradox_nearby := false } Option.none).1 = true := rfl

/-- C3 amended: the ConsentChecker.check_context path does satisfy the
claimed property: with a target scope it succeeds exactly when some
extracted ticket is TTL/invocation valid and its scope covers the target by
de-escalation, and a context from which no tickets are extracted never
passes (decision_core.check_consent, by contrast, only demands that all
present tickets be TTL-valid, as the counterexample shows). -/
theorem C3_check_context_characterization (now : ℚ) (ctx : ConsentChecker.Ctx) (tgt : String) :
    (ConsentChecker.check_context now ctx (some tgt) = true ↔
      ∃ t, t ∈ ConsentChecker.extract_from_context now ctx ∧
        t.is_valid now = true ∧ ConsentChecker.can_escalate t.scope tgt = true)
    ∧ (ConsentChecker.extract_from_context now ctx = [] →
        ∀ o : Option String, ConsentChecker.check_context now ctx o = false) := by
  constructor
  · by_cases he : (ConsentChecker.extract_from_context now ctx).isEmpty
    · have hnil : ConsentChecker.extract_from_context now ctx = [] :=
        List.isEmpty_iff.mp he
      simp [ConsentChecker.check_context, hnil]
    · simp [ConsentChecker.check_context, he, List.any_eq_true, Bool.and_eq_true,
        and_assoc]
  · intro h o
    simp [ConsentChecker.check_context, h]

/-- C3 witness: a context whose consent entry declares a valid dyad-scope
ticket passes check_context for the more constrained self scope, via the
characterization. -/
theorem C3_characterization_witness :
    ConsentChecker.check_context 0
      { consent := some
          { scope := some "dyad", valid := some (PyVal.bool true),
            issued_at := some (-60), ttl_seconds := Option.none,
            max_invocations := Option.none, invocations := Option.none },
        consent_tickets := Option.none } (some "self") = true := by
  refine (C3_check_context_characterization 0 _ "self").1.mpr ?_
  refine ⟨{ scope := "dyad", issued_at := -60, ttl_seconds := 3600,
            max_invocations := 1, invocations := 0 }, ?_, ?_, ?_⟩
  · simp [ConsentChecker.extract_from_context, truthy]
  · norm_num [ConsentChecker.ConsentTicket.is_valid]
  · decide

/-- Helper for C10: one use call preserves the invocation bound and never
changes max_invocations. -/
theorem is_valid_true_iff (now : ℚ) (t : ConsentChecker.ConsentTicket) :
    t.is_valid now = true ↔
      (now ≤ t.issued_at + t.ttl_seconds ∧ t.invocations < t.max_invocations) := by
  unfold ConsentChecker.ConsentTicket.is_valid
  split_ifs with h1 h2
  · simp only [Bool.false_eq_true, false_iff]
    rintro ⟨a, _⟩
    exact absurd a (not_le.mpr h1)
  · simp only [Bool.false_eq_true, false_iff]
    rintro ⟨_, b⟩
    omega
  · simp only [true_iff]
    exact ⟨le_of_not_gt h1, lt_of_not_ge h2⟩

theorem use_step_bound (τ : ℚ) (s : ConsentChecker.ConsentTicket)
    (h : s.invocations ≤ s.max_invocations) :
    (s.use τ).2.invocations ≤ (s.use τ).2.max_invocations
    ∧ (s.use τ).2.max_invocations = s.max_invocations := by
  by_cases hv : s.is_valid τ = true
  · have hlt := ((is_valid_true_iff τ s).mp hv).2
    unfold ConsentChecker.ConsentTicket.use
    rw [if_pos hv]
    exact ⟨by simp only []; omega, rfl⟩
  · unfold ConsentChecker.ConsentTicket.use
    rw [if_neg hv]
    exact ⟨h, rfl⟩

/-- C10: ConsentTicket.use is atomic with respect to validity: an invalid
ticket is returned unchanged with result False, a valid ticket gains exactly
one invocation with result True, and consequently a ticket that starts
within its invocation budget never exceeds max_invocations over any sequence
of use calls. -/
theorem C10_use_atomic (now : ℚ) (t : ConsentChecker.ConsentTicket) :
    (t.is_valid now = false → t.use now = (false, t))
    ∧ (t.is_valid now = true →
        t.use now = (true, { t with invocations := t.invocations + 1 }))
    ∧ (∀ times : List ℚ, t.invocations ≤ t.max_invocations →
        ((times.foldl (fun (s : ConsentChecker.ConsentTicket) τ => (s.use τ).2) t).invocations ≤
          t.max_invocations)) := by
  refine ⟨?_, ?_, ?_⟩
  · intro h
    unfold ConsentChecker.ConsentTicket.use
    simp [h]
  · intro h
    unfold ConsentChecker.ConsentTicket.use
    simp [h]
  · intro times
    induction times generalizing t with
    | nil => intro h; simpa using h
    | cons τ rest ih =>
        intro h
        have hs := use_step_bound τ t h
        simpa [List.foldl_cons, hs.2] using (hs.2 ▸ ih (t.use τ).2 hs.1)

/-- C10 witness: an expired ticket is rejected unchanged, a fresh ticket is
consumed once, and three consecutive uses of a two-invocation ticket stay
within the cap. -/
theorem C10_use_atomic_witness :
    (ConsentChecker.ConsentTicket.use 100
      { scope := "self", issued_at := 0, ttl_seconds := 10,
        max_invocations := 1, invocations := 0 } =
      (false,
        { scope := "self", issued_at := 0, ttl_seconds := 10,
          max_invocations := 1, invocations := 0 }))
    ∧ (ConsentChecker.ConsentTicket.use 5
      { scope := "group", issued_at := 0, ttl_seconds := 10,
        max_invocations := 2, invocations := 0 } =
      (true,
        { scope := "group", issued_at := 0, ttl_seconds := 10,
          max_invocations := 2, invocations := 1 }))
    ∧ ((([1, 2, 3] : List ℚ).foldl (fun (s : ConsentChecker.ConsentTicket) τ => (s.use τ).2)
      ({ scope := "group", issued_at := 0, ttl_seconds := 10,
         max_invocations := 2, invocations := 0 } : ConsentChecker.ConsentTicket)).invocations
        ≤ 2) := by
  refine ⟨?_, ?_, ?_⟩
  · exact (C10_use_atomic 100 _).1 (by norm_num [ConsentChecker.ConsentTicket.is_valid])
  · exact (C10_use_atomic 5 _).2.1 (by norm_num [ConsentChecker.ConsentTicket.is_valid])
  · exact (C10_use_atomic 0 _).2.2 [1, 2, 3] (by decide)

/-- C7 counterexample: the claim says the will-inversion table is an
involution on every operator; on the code TRANSCENSION maps to NEGATION,
which maps back to POTENTIATION, not TRANSCENSION. -/
theorem C7_counterexample_transcension :
    ShadowTwin.willInvert "TRANSCENSION" = some "NEGATION"
    ∧ ShadowTwin.willInvert "NEGATION" = some "POTENTIATION"
    ∧ ("POTENTIATION" : String) ≠ "TRANSCENSION" := by
  refine ⟨rfl, rfl, by decide⟩

/-- C7 amended: the inversion table is an involution on its domain with the
single exception of TRANSCENSION (whose image NEGATION maps back to
POTENTIATION): every other operator in the table inverts twice to itself. -/
theorem C7_involution_except_transcension (s t : String)
    (h : ShadowTwin.willInvert s = some t) (hs : s ≠ "TRANSCENSION") :
    ShadowTwin.willInvert t = some s := by
  simp only [ShadowTwin.willInvert, ShadowTwin.WILL_INVERT, lookupV] at h
  split_ifs at h with h1 h2 h3 h4 h5 h6 h7 h8 h9
  · subst h1; injection h with h; subst h; rfl
  · subst h2; injection h with h; subst h; rfl
  · subst h3; injection h with h; subst h; rfl
  · subst h4; injection h with h; subst h; rfl
  · subst h5; injection h with h; subst h; rfl
  · subst h6; injection h with h; subst h; rfl
  · subst h7; injection h with h; subst h; rfl
  · exact absurd h8.symm hs
  · subst h9; injection h with h; subst h; rfl

/-- C7 witness: EXPANSION inverts to POSSESSION and back to EXPANSION. -/
theorem C7_involution_witness :
    ShadowTwin.willInvert "POSSESSION" = some "EXPANSION" :=
  C7_involution_except_transcension "EXPANSION" "POSSESSION" rfl (by decide)

/-- C8: shadow-twin arbitration gives hard-gate survival absolute precedence
over risk: if exactly one of primary/counter passes all of consent,
apophatic and externalities, that side is selected regardless of risk; if
both or neither pass, the lower risk wins with ties in favour of primary. -/
theorem C8_twin_arbitration (build : PCA.AdviceDraft → String → PCA.AdviceWithProof)
    (draft : PCA.AdviceDraft) (ans : String) :
    (ShadowTwin.hard_ok (build draft ans) = true ∧
      ShadowTwin.hard_ok (build (ShadowTwin.invertDraft draft) (ShadowTwin.counter_answer ans)) = false →
      (ShadowTwin.contemplate build draft ans).selection = "primary")
    ∧ (ShadowTwin.hard_ok (build draft ans) = false ∧
      ShadowTwin.hard_ok (build (ShadowTwin.invertDraft draft) (ShadowTwin.counter_answer ans)) = true →
      (ShadowTwin.contemplate build draft ans).selection = "counter")
    ∧ (ShadowTwin.hard_ok (build draft ans) =
        ShadowTwin.hard_ok (build (ShadowTwin.invertDraft draft) (ShadowTwin.counter_answer ans)) →
      (((build draft ans).risk ≤
          (build (ShadowTwin.invertDraft draft) (ShadowTwin.counter_answer ans)).risk →
        (ShadowTwin.contemplate build draft ans).selection = "primary")
      ∧ ((build (ShadowTwin.invertDraft draft) (ShadowTwin.counter_answer ans)).risk <
          (build draft ans).risk →
        (ShadowTwin.contemplate build draft ans).selection = "counter"))) := by
  refine ⟨?_, ?_, ?_⟩
  · rintro ⟨h1, h2⟩
    simp [ShadowTwin.contemplate, h1, h2]
  · rintro ⟨h1, h2⟩
    simp [ShadowTwin.contemplate, h1, h2]
  · intro h
    constructor
    · intro hr
      simp [ShadowTwin.contemplate, ← h, hr]
    · intro hr
      simp [ShadowTwin.contemplate, ← h, not_le.mpr hr]

/-- C8 witness: with a pipeline in which the primary draft passes all three
hard gates and the counter draft passes none, the selection is primary. -/
theorem C8_twin_arbitration_witness :
    (ShadowTwin.contemplate
      (fun d _ =>
        if d.id = "d1" then
          { id := "p", answer := "x", risk := 0,
            proofs := [⟨"consent", true, PyVal.none, ""⟩, ⟨"apophatic", true, PyVal.none, ""⟩,
              ⟨"externalities", true, PyVal.none, ""⟩],
            assessment := PyVal.none, decided_at := 0 }
        else
          { id := "c", answer := "y", risk := 0, proofs := [],
            assessment := PyVal.none, decided_at := 0 })
      { id := "d1", query := "q",
        plan := { budget_lines := Option.none, rollback_recipe := Option.none, rest := [] },
        params := { will := Option.none, rest := [] }, context := [] }
      "go").selection = "primary" := by
  refine (C8_twin_arbitration _ _ _).1 ⟨?_, ?_⟩
  · decide
  · decide

/-- Lookup after assignment at the assigned key yields the assigned value. -/
theorem lookupV_assign_self {α : Type} (l : List (String × α)) (k : String) (v : α) :
    lookupV k (assign l k v) = some v := by
  induction l with
  | nil => simp [assign, lookupV]
  | cons p rest ih =>
      obtain ⟨k2, v2⟩ := p
      by_cases hk : k2 = k
      · simp [assign, hk, lookupV]
      · simp [assign, hk, lookupV, ih]

/-- Lookup after assignment at a different key is unchanged. -/
theorem lookupV_assign_ne {α : Type} (l : List (String × α)) (k q : String) (v : α)
    (h : q ≠ k) : lookupV q (assign l k v) = lookupV q l := by
  induction l with
  | nil => simp [assign, lookupV, Ne.symm h]
  | cons p rest ih =>
      obtain ⟨k2, v2⟩ := p
      by_cases hk : k2 = k
      · subst hk
        simp [assign, lookupV, Ne.symm h]
      · by_cases hq : k2 = q
        · subst hq
          simp [assign, h, lookupV]
        · simp [assign, hk, lookupV, hq, ih]

/-- C9 amended: the counter-draft raises each of the six standard externality
budget keys (privacy, safety, environmental, reputation, technical_debt,
compute) to at least the 0.9 floor, leaves budget lines under any other key
unchanged, always carries a rollback recipe, and leaves the draft's query and
consent context unchanged. -/
theorem C9_invert_floors_and_preserves (draft : PCA.AdviceDraft) :
    (∀ k ∈ ShadowTwin.BUDGET_KEYS, ∃ v : ℚ,
        lookupV k (((ShadowTwin.invertDraft draft).plan.budget_lines).getD []) = some v
        ∧ 9 / 10 ≤ v)
    ∧ (∀ k : String, k ∉ ShadowTwin.BUDGET_KEYS →
        lookupV k (((ShadowTwin.invertDraft draft).plan.budget_lines).getD []) =
          lookupV k (draft.plan.budget_lines.getD []))
    ∧ ((ShadowTwin.invertDraft draft).plan.rollback_recipe).isSome = true
    ∧ (ShadowTwin.invertDraft draft).query = draft.query
    ∧ (ShadowTwin.invertDraft draft).context = draft.context := by
  refine ⟨?_, ?_, ?_, ?_, ?_⟩
  · intro k hk
    fin_cases hk <;>
      · simp only [ShadowTwin.invertDraft, ShadowTwin.BUDGET_KEYS, List.foldl, Option.getD_some]
        simp [lookupV_assign_self, lookupV_assign_ne]
  · intro k hk
    simp only [ShadowTwin.BUDGET_KEYS, List.mem_cons, List.mem_singleton, not_or] at hk
    obtain ⟨h1, h2, h3, h4, h5, h6, -⟩ := hk
    simp only [ShadowTwin.invertDraft, ShadowTwin.BUDGET_KEYS, List.foldl, Option.getD_some]
    rw [lookupV_assign_ne _ _ _ _ h6, lookupV_assign_ne _ _ _ _ h5,
      lookupV_assign_ne _ _ _ _ h4, lookupV_assign_ne _ _ _ _ h3,
      lookupV_assign_ne _ _ _ _ h2, lookupV_assign_ne _ _ _ _ h1]
  · simp [ShadowTwin.invertDraft]
  · simp [ShadowTwin.invertDraft]
  · simp [ShadowTwin.invertDraft]

/-- C9 counterexample: a budget line under a key outside the six standard
categories is not raised: a draft with budget_lines containing custom at 0.1
yields a counter-draft that still carries custom at 0.1, below the 0.9
floor, so not every budget line is raised. -/
theorem C9_counterexample_custom_line :
    lookupV "custom"
      (((ShadowTwin.invertDraft
        { id := "d1", query := "q",
          plan := { budget_lines := some [("custom", 1 / 10)],
                    rollback_recipe := Option.none, rest := [] },
          params := { will := Option.none, rest := [] },
          context := [] }).plan.budget_lines).getD []) = some (1 / 10)
    ∧ ¬((9 : ℚ) / 10 ≤ 1 / 10) := by
  constructor
  · simp only [ShadowTwin.invertDraft, ShadowTwin.BUDGET_KEYS, List.foldl, Option.getD_some]
    rw [lookupV_assign_ne _ _ _ _ (by decide), lookupV_assign_ne _ _ _ _ (by decide),
      lookupV_assign_ne _ _ _ _ (by decide), lookupV_assign_ne _ _ _ _ (by decide),
      lookupV_assign_ne _ _ _ _ (by decide), lookupV_assign_ne _ _ _ _ (by decide)]
    simp [lookupV]
  · norm_num

/-- C9 witness: the spec's example draft (will Expansion, budget lines
privacy 0.9, safety 0.8, technical_debt 0.6) yields a counter-draft whose
privacy line is present and at least 0.9. -/
theorem C9_floor_witness :
    ∃ v : ℚ, lookupV "privacy"
      (((ShadowTwin.invertDraft
        { id := "d2", query := "scale feature X",
          plan := { budget_lines := some [("privacy", 9 / 10), ("safety", 8 / 10),
                      ("technical_debt", 6 / 10)],
                    rollback_recipe := Option.none, rest := [] },
          params := { will := some "Expansion", rest := [] },
          context := [("consent", PyVal.dict [("scope", PyVal.str "org"),
            ("valid", PyVal.bool true)])] }).plan.budget_lines).getD []) = some v
      ∧ 9 / 10 ≤ v :=
  (C9_invert_floors_and_preserves _).1 "privacy" (by decide)

/-- The lexicographic preorder is reflexive. -/
theorem lexLE_refl (a : DecisionCore.Scored) : DecisionCore.lexLE a a :=
  Or.inr ⟨rfl, Or.inr ⟨rfl, le_refl a.E⟩⟩

/-- The lexicographic preorder is transitive. -/
theorem lexLE_trans {a b c : DecisionCore.Scored}
    (h1 : DecisionCore.lexLE a b) (h2 : DecisionCore.lexLE b c) : DecisionCore.lexLE a c := by
  unfold DecisionCore.lexLE at h1 h2 ⊢
  rcases h1 with h1 | ⟨e1, g1⟩
  · rcases h2 with h2 | ⟨e2, _⟩
    · exact Or.inl (lt_trans h1 h2)
    · exact Or.inl (e2 ▸ h1)
  · rcases h2 with h2 | ⟨e2, g2⟩
    · exact Or.inl (e1 ▸ h2)
    · refine Or.inr ⟨e1.trans e2, ?_⟩
      rcases g1 with g1 | ⟨eg1, l1⟩
      · rcases g2 with g2 | ⟨eg2, _⟩
        · exact Or.inl (lt_trans g2 g1)
        · exact Or.inl (eg2 ▸ g1)
      · rcases g2 with g2 | ⟨eg2, l2⟩
        · refine Or.inl ?_
          rw [eg1]
          exact g2
        · exact Or.inr ⟨eg1.trans eg2, le_trans l1 l2⟩

/-- A row that fails the replacement test is lexicographically at least the
current best. -/
theorem lexLE_of_better_false {n b : DecisionCore.Scored}
    (h : DecisionCore.better n b = false) : DecisionCore.lexLE b n := by
  unfold DecisionCore.better at h
  unfold DecisionCore.lexLE
  split_ifs at h with h1 h2 h3 h4
  · exact Or.inr ⟨h2.symm, Or.inr ⟨h4.symm, le_of_not_lt (by simpa using h)⟩⟩
  · exact Or.inr ⟨h2.symm, Or.inl (lt_of_le_of_ne (le_of_not_lt h3) h4)⟩
  · exact Or.inl (lt_of_le_of_ne (le_of_not_lt h1) (fun e => h2 e.symm))

/-- A row that passes the replacement test is lexicographically at most the
current best. -/
theorem lexLE_of_better_true {n b : DecisionCore.Scored}
    (h : DecisionCore.better n b = true) : DecisionCore.lexLE n b := by
  unfold DecisionCore.better at h
  unfold DecisionCore.lexLE
  split_ifs at h with h1 h2 h3 h4
  · exact Or.inl h1
  · exact Or.inr ⟨h2, Or.inl h3⟩
  · exact Or.inr ⟨h2, Or.inr ⟨h4, le_of_lt (by simpa using h)⟩⟩

/-- Specification of the selection fold of minimal_clean_move, starting from
a current best b: the fold returns a row drawn from b or the list that is
lexicographically minimal among b and all list rows. -/
theorem selectBest_go (l : List DecisionCore.Scored) (b : DecisionCore.Scored) :
    ∃ r, l.foldl (fun best t =>
        match best with
        | Option.none => some t
        | some bb => if DecisionCore.better t bb then some t else some bb) (some b) = some r
      ∧ (r = b ∨ r ∈ l) ∧ DecisionCore.lexLE r b ∧ ∀ x ∈ l, DecisionCore.lexLE r x := by
  induction l generalizing b with
  | nil => exact ⟨b, rfl, Or.inl rfl, lexLE_refl b, by simp⟩
  | cons t rest ih =>
      simp only [List.foldl_cons]
      by_cases hbt : DecisionCore.better t b = true
      · rw [if_pos hbt]
        obtain ⟨r, hr, hm, hrt, hall⟩ := ih t
        refine ⟨r, hr, ?_, ?_, ?_⟩
        · exact Or.inr (hm.elim (fun e => e ▸ List.mem_cons_self t rest)
            (fun hmm => List.mem_cons_of_mem t hmm))
        · exact lexLE_trans hrt (lexLE_of_better_true hbt)
        · intro x hx
          rcases List.mem_cons.mp hx with hx | hx
          · exact hx ▸ hrt
          · exact hall x hx
      · rw [if_neg hbt]
        obtain ⟨r, hr, hm, hrb, hall⟩ := ih b
        refine ⟨r, hr, ?_, hrb, ?_⟩
        · exact hm.elim Or.inl (fun hmm => Or.inr (List.mem_cons_of_mem t hmm))
        · intro x hx
          rcases List.mem_cons.mp hx with hx | hx
          · exact hx ▸ lexLE_trans hrb
              (lexLE_of_better_false (Bool.eq_false_iff.mpr hbt))
          · exact hall x hx

/-- C5: the solver's selection among candidates is lexicographic: the row
the selection loop returns minimizes effective cost; among candidates tying
on effective cost it has maximal coherence; among candidates tying on both
it has minimal raw cost. -/
theorem C5_solver_selection_lexicographic
    (energy kernelW grace : DecisionCore.State → DecisionCore.Action → ℚ)
    (st : DecisionCore.State) (candidates : List DecisionCore.Action)
    (c : DecisionCore.Action) (hc : c ∈ candidates) :
    ∃ b : DecisionCore.Scored,
      DecisionCore.selectBest (candidates.map (DecisionCore.score energy kernelW grace st)) = some b
      ∧ b.act ∈ candidates
      ∧ b.EK ≤ energy st c * kernelW st c
      ∧ (b.EK = energy st c * kernelW st c → grace st c ≤ b.G)
      ∧ (b.EK = energy st c * kernelW st c ∧ b.G = grace st c → b.E ≤ energy st c) := by
  cases candidates with
  | nil => cases hc
  | cons a rest =>
      unfold DecisionCore.selectBest
      simp only [List.map_cons, List.foldl_cons]
      obtain ⟨r, hr, hm, hra, hall⟩ :=
        selectBest_go (rest.map (DecisionCore.score energy kernelW grace st))
          (DecisionCore.score energy kernelW grace st a)
      have hlex : DecisionCore.lexLE r (DecisionCore.score energy kernelW grace st c) := by
        rcases List.mem_cons.mp hc with hcc | hcc
        · exact hcc ▸ hra
        · exact hall _ (List.mem_map_of_mem _ hcc)
      have hmem : r.act ∈ a :: rest := by
        rcases hm with hm | hm
        · rw [hm]
          exact List.mem_cons_self a rest
        · obtain ⟨a2, ha2, he⟩ := List.mem_map.mp hm
          rw [← he]
          exact List.mem_cons_of_mem a ha2
      refine ⟨r, hr, hmem, ?_, ?_, ?_⟩
      · rcases hlex with h | ⟨e, _⟩
        · exact le_of_lt h
        · exact le_of_eq e
      · intro heq
        rcases hlex with h | ⟨e, g⟩
        · exact absurd heq (ne_of_lt h)
        · rcases g with g | ⟨eg, _⟩
          · exact le_of_lt g
          · exact le_of_eq eg.symm
      · rintro ⟨heq, hgeq⟩
        rcases hlex with h | ⟨e, g⟩
        · exact absurd heq (ne_of_lt h)
        · rcases g with g | ⟨eg, le⟩
          · exact absurd hgeq.symm (ne_of_lt g)
          · exact le

/-- C5 witness: the selection property instantiated on a concrete two
candidate race. -/
theorem C5_selection_witness :
    ∃ b : DecisionCore.Scored,
      DecisionCore.selectBest
        (([{ id := "a1", description := "a1", params := [] },
           { id := "a2", description := "a2", params := [] }] :
             List DecisionCore.Action).map
          (DecisionCore.score (fun _ _ => (-1 : ℚ)) (fun _ _ => 1)
            (fun _ a => if a.id = "a2" then 1 else 0)
            { context := [], stage := "S5", will_operator := "EXP", consent_tickets := [],
              paradox_nearby := false })) = some b
      ∧ b.act ∈ ([{ id := "a1", description := "a1", params := [] },
           { id := "a2", description := "a2", params := [] }] : List DecisionCore.Action)
      ∧ b.EK ≤ (-1 : ℚ) * 1
      ∧ (b.EK = (-1 : ℚ) * 1 →
          (if ({ id := "a2", description := "a2", params := [] } : DecisionCore.Action).id = "a2"
            then (1 : ℚ) else 0) ≤ b.G)
      ∧ (b.EK = (-1 : ℚ) * 1 ∧
          b.G = (if ({ id := "a2", description := "a2", params := [] } : DecisionCore.Action).id = "a2"
            then (1 : ℚ) else 0) → b.E ≤ -1) :=
  C5_solver_selection_lexicographic (fun _ _ => (-1 : ℚ)) (fun _ _ => 1)
    (fun _ a => if a.id = "a2" then 1 else 0)
    { context := [], stage := "S5", will_operator := "EXP", consent_tickets := [],
      paradox_nearby := false }
    [{ id := "a1", description := "a1", params := [] },
     { id := "a2", description := "a2", params := [] }]
    { id := "a2", description := "a2", params := [] }
    (List.mem_cons_of_mem _ (List.mem_cons_self _ _))

/-- C6: if every candidate's raw cost is at least the acceptance threshold,
the solver returns no action and the paradox-gate logic classifies the
no-action case with passing consent and apophatic evidence as Stand; the
orchestrator decide itself, however, raises AttributeError on every input
before reaching the solver, so the claimed end-to-end Stand outcome is
unreachable in the code. -/
theorem C6_no_viable_candidate_stand
    (energy kernelW grace : DecisionCore.State → DecisionCore.Action → ℚ)
    (MIN_DELTA_E MIN_GRACE : ℚ) (st : DecisionCore.State)
    (candidates : List DecisionCore.Action)
    (h : ∀ c ∈ candidates, MIN_DELTA_E ≤ energy st c)
    (bundle : DecisionCore.ProofBundle) (tv : DecisionCore.TruthVal)
    (hcons : truthy ((lookupV "ok" bundle.consent).getD (PyVal.bool true)) = true)
    (hap : truthy ((lookupV "apophatic_ok" bundle.logic).getD (PyVal.bool true)) = true) :
    DecisionCore.minimal_clean_move energy kernelW grace MIN_DELTA_E MIN_GRACE st candidates =
      (Option.none, Option.none, Option.none)
    ∧ DecisionCore.pgl_decide st Option.none bundle tv = DecisionCore.Decision.Stand
    ∧ (∀ (now : ℚ) pe am ap lr rd,
        DecisionCore.decide now energy kernelW grace MIN_DELTA_E MIN_GRACE pe am ap lr rd
          st candidates = Except.error DecisionCore.PyErr.attributeError) := by
  refine ⟨?_, ?_, fun now pe am ap lr rd => rfl⟩
  · unfold DecisionCore.minimal_clean_move
    cases candidates with
    | nil => rfl
    | cons a rest =>
        unfold DecisionCore.selectBest
        simp only [List.map_cons, List.foldl_cons]
        obtain ⟨r, hr, hm, -, -⟩ :=
          selectBest_go (rest.map (DecisionCore.score energy kernelW grace st))
            (DecisionCore.score energy kernelW grace st a)
        rw [hr]
        have hrE : MIN_DELTA_E ≤ r.E := by
          rcases hm with hm | hm
          · rw [hm]
            exact h a (List.mem_cons_self a rest)
          · obtain ⟨a2, ha2, he⟩ := List.mem_map.mp hm
            rw [← he]
            exact h a2 (List.mem_cons_of_mem a ha2)
        dsimp only
        rw [if_pos hrE]
  · simp only [DecisionCore.pgl_decide, hcons, hap]
    rfl

/-- C6 witness: with a single candidate of positive raw cost against the
default negative threshold and passing gate evidence, the solver stands
down and the gate logic yields Stand, while decide errors. -/
theorem C6_no_viable_candidate_witness :
    DecisionCore.minimal_clean_move (fun _ _ => (1 : ℚ)) (fun _ _ => 1) (fun _ _ => 0)
      (-(1 / 20)) (1 / 2)
      { context := [], stage := "S5", will_operator := "EXP", consent_tickets := [],
        paradox_nearby := false }
      [{ id := "a1", description := "a1", params := [] }] =
      (Option.none, Option.none, Option.none)
    ∧ DecisionCore.pgl_decide
        { context := [], stage := "S5", will_operator := "EXP", consent_tickets := [],
          paradox_nearby := false }
        Option.none
        { logic := [("apophatic_ok", PyVal.bool true)], ethics := [],
          consent := [("ok", PyVal.bool true)], phenomenology := [] }
        DecisionCore.TruthVal.T = DecisionCore.Decision.Stand := by
  have h := C6_no_viable_candidate_stand (fun _ _ => (1 : ℚ)) (fun _ _ => 1) (fun _ _ => 0)
    (-(1 / 20)) (1 / 2)
    { context := [], stage := "S5", will_operator := "EXP", consent_tickets := [],
      paradox_nearby := false }
    [{ id := "a1", description := "a1", params := [] }]
    (by intro c hc; norm_num)
    { logic := [("apophatic_ok", PyVal.bool true)], ethics := [],
      consent := [("ok", PyVal.bool true)], phenomenology := [] }
    DecisionCore.TruthVal.T
    (by simp [lookupV, truthy])
    (by simp [lookupV, truthy])
  exact ⟨h.1, h.2.1⟩

/-- Sorting by key is insensitive to the input permutation when keys are
pairwise distinct: both sorts are sorted, strictly by key, and permutations
of each other. -/
theorem insertionSort_keyLE_eq_of_perm {d1 d2 : List (String × PyVal)}
    (hp : d1.Perm d2) (hnd : NodupKeys d1) :
    d1.insertionSort keyLE = d2.insertionSort keyLE := by
  have hS : ∀ {x y : String × PyVal}, x.1 ≠ y.1 → y.1 ≠ x.1 := fun h => Ne.symm h
  have hnd2 : NodupKeys d2 := (hp.pairwise_iff hS).mp hnd
  have hperm : List.Perm (d1.insertionSort keyLE) (d2.insertionSort keyLE) :=
    (List.perm_insertionSort keyLE d1).trans (hp.trans (List.perm_insertionSort keyLE d2).symm)
  have hnd1s : (d1.insertionSort keyLE).Pairwise (fun p q => p.1 ≠ q.1) :=
    ((List.perm_insertionSort keyLE d1).pairwise_iff hS).mpr hnd
  have hnd2s : (d2.insertionSort keyLE).Pairwise (fun p q => p.1 ≠ q.1) :=
    ((List.perm_insertionSort keyLE d2).pairwise_iff hS).mpr hnd2
  have hlt1 : (d1.insertionSort keyLE).Pairwise keyLT :=
    ((List.sorted_insertionSort keyLE d1).and hnd1s).imp (fun h => h)
  have hlt2 : (d2.insertionSort keyLE).Pairwise keyLT :=
    ((List.sorted_insertionSort keyLE d2).and hnd2s).imp (fun h => h)
  exact List.eq_of_perm_of_sorted hperm hlt1 hlt2

/-- The dict case of dumps with the attachment eliminated. -/
theorem dumps_dict (kvs : List (String × PyVal)) :
    dumps (PyVal.dict kvs) = "\x7b" ++ String.intercalate ", "
      ((kvs.insertionSort keyLE).map fun e => quoteStr e.1 ++ ": " ++ dumps e.2) ++ "\x7d" := by
  simp only [dumps]
  rw [List.attach_map_val (kvs.insertionSort keyLE) (fun e => quoteStr e.1 ++ ": " ++ dumps e.2)]

/-- Serializations of dicts with equal key-sorted entry lists agree. -/
theorem dumps_dict_eq_of_sort_eq {d1 d2 : List (String × PyVal)}
    (h : d1.insertionSort keyLE = d2.insertionSort keyLE) :
    dumps (PyVal.dict d1) = dumps (PyVal.dict d2) := by
  rw [dumps_dict, dumps_dict, h]

/-- Key-sorting the proof-token payload dict puts details before name before
ok, whatever the payload values are. -/
theorem sort_token_payload (a b c : PyVal) :
    List.insertionSort keyLE [("name", a), ("ok", b), ("details", c)] =
      [("details", c), ("name", a), ("ok", b)] := rfl

/-- C4: proof-token generation is deterministic: two details payloads that
are equal as Python dicts (the same key-value entries, whatever their
insertion order, with pairwise distinct keys) give byte-identical tokens
for the same name and outcome, because the serialization sorts keys before
hashing. -/
theorem C4_proof_token_deterministic (name : String) (ok : Bool)
    (d1 d2 : List (String × PyVal)) (hperm : d1.Perm d2) (hnd : NodupKeys d1) :
    (PCA.mk_proof name ok (PyVal.dict d1)).token =
      (PCA.mk_proof name ok (PyVal.dict d2)).token := by
  have hinner : dumps (PyVal.dict d1) = dumps (PyVal.dict d2) :=
    dumps_dict_eq_of_sort_eq (insertionSort_keyLE_eq_of_perm hperm hnd)
  show PCA.blake (PyVal.dict
      [("name", PyVal.str name), ("ok", PyVal.bool ok), ("details", PyVal.dict d1)]) =
    PCA.blake (PyVal.dict
      [("name", PyVal.str name), ("ok", PyVal.bool ok), ("details", PyVal.dict d2)])
  unfold PCA.blake
  suffices hout : dumps (PyVal.dict
      [("name", PyVal.str name), ("ok", PyVal.bool ok), ("details", PyVal.dict d1)]) =
    dumps (PyVal.dict
      [("name", PyVal.str name), ("ok", PyVal.bool ok), ("details", PyVal.dict d2)]) by
    rw [hout]
  rw [dumps_dict, dumps_dict, sort_token_payload, sort_token_payload]
  simp only [List.map_cons, List.map_nil]
  rw [hinner]

/-- C4 witness: swapping the insertion order of two detail entries leaves
the token unchanged. -/
theorem C4_token_witness :
    (PCA.mk_proof "consent" true
      (PyVal.dict [("a", PyVal.num 1), ("b", PyVal.str "x")])).token =
    (PCA.mk_proof "consent" true
      (PyVal.dict [("b", PyVal.str "x"), ("a", PyVal.num 1)])).token :=
  C4_proof_token_deterministic "consent" true _ _ (List.Perm.swap _ _ _)
    (by unfold NodupKeys; decide)
